import Mathlib

/-!
Verification development for the `c2cli` annotation-format converter.

The Python source is shallowly embedded: Python `int` is modelled as `ℤ`,
Python `None`/optional values as `Option`, Python exceptions as `Except`,
and the in-place mutation performed by the COCO writer as an explicit
state-passing result.  Python `float` is modelled two ways: as exact
rationals (`ℚ`) where a claim concerns data flow or exact-arithmetic
identities, and by an exact model of IEEE-754 binary64 rounding (the
`Dbl` type below) where a claim concerns the floating-point behaviour of
the arithmetic itself.
-/

namespace C2cli

/-- Embeds `BBox` from `src/c2cli/models.py` (corner representation). -/
structure BBox where
  x_min : ℚ
  y_min : ℚ
  x_max : ℚ
  y_max : ℚ
deriving DecidableEq, Repr

/-- Embeds `BBox.to_xywh`: convert to (x, y, width, height). -/
def BBox.to_xywh (b : BBox) : ℚ × ℚ × ℚ × ℚ :=
  (b.x_min, b.y_min, b.x_max - b.x_min, b.y_max - b.y_min)

/-- Embeds `BBox.to_yolo`: convert to normalized (x_center, y_center, width, height). -/
def BBox.to_yolo (b : BBox) (img_width img_height : ℤ) : ℚ × ℚ × ℚ × ℚ :=
  let width := b.x_max - b.x_min
  let height := b.y_max - b.y_min
  let x_center := b.x_min + width / 2
  let y_center := b.y_min + height / 2
  (x_center / img_width, y_center / img_height, width / img_width, height / img_height)

/-- Embeds classmethod `BBox.from_xywh`. -/
def BBox.from_xywh (x y w h : ℚ) : BBox :=
  ⟨x, y, x + w, y + h⟩

/-- Embeds classmethod `BBox.from_yolo`. -/
def BBox.from_yolo (x_center y_center width height : ℚ) (img_width img_height : ℤ) : BBox :=
  let w := width * img_width
  let h := height * img_height
  let x := x_center * img_width - w / 2
  let y := y_center * img_height - h / 2
  ⟨x, y, x + w, y + h⟩

/-- Embeds the `Annotation` dataclass (fields in source order: bbox,
category_id, category_name, difficult, truncated, area, iscrowd).
The name `Ann` is used for the Lean declaration. -/
structure Ann where
  bbox : BBox
  category_id : ℤ
  category_name : String
  difficult : Bool
  truncated : Bool
  area : Option ℚ
  iscrowd : ℤ
deriving DecidableEq, Repr

/-- Embeds `Annotation.__init__` followed by `Annotation.__post_init__`:
when `area` is `None` it is computed as `w * h` of `bbox.to_xywh()`. -/
def mkAnn (bbox : BBox) (category_id : ℤ) (category_name : String)
    (difficult truncated : Bool) (area : Option ℚ) (iscrowd : ℤ) : Ann :=
  match area with
  | none => ⟨bbox, category_id, category_name, difficult, truncated,
      some (bbox.to_xywh.2.2.1 * bbox.to_xywh.2.2.2), iscrowd⟩
  | some a => ⟨bbox, category_id, category_name, difficult, truncated, some a, iscrowd⟩

/-- Construction of an `Annotation` with all dataclass defaults taken
(difficult=False, truncated=False, area=None, iscrowd=0). -/
def mkAnnDefaults (bbox : BBox) (category_id : ℤ) (category_name : String) : Ann :=
  mkAnn bbox category_id category_name false false none 0

/-- Embeds the `Image` dataclass. -/
structure Image where
  file_name : String
  width : ℤ
  height : ℤ
  annotations : List Ann
  image_id : Option ℤ
deriving DecidableEq, Repr

/-- Embeds the `Category` dataclass. -/
structure Category where
  id : ℤ
  name : String
  supercategory : Option String
deriving DecidableEq, Repr

/-- Embeds the `Dataset` dataclass. The free-form `info` mapping
(`Dict[str, Any]` in the source) is modelled opaquely as an association
list of strings; no code under verification inspects its contents. -/
structure Dataset where
  images : List Image
  categories : List Category
  info : List (String × String)
deriving DecidableEq, Repr

/-!
IEEE-754 binary64 model.  Python floats are doubles; where a claim is
about the floating-point arithmetic itself, the ℚ embedding above is not
faithful, so the geometry operations are also embedded over an exact
model of binary64: a finite double is a dyadic value `m * 2^exp`, and
every arithmetic operation rounds its exact result to 53 significant
bits (round to nearest, ties to even, subnormals at exponent -1074).
Overflow to infinity, NaN, signed zero, and division by zero are not
modelled; no claim input reaches them.  Everything is computed with `ℤ`
and `ℕ` arithmetic so that the kernel can evaluate concrete instances.
-/

/-- A finite binary64 value `m * 2^exp`; canonical when `m` is odd or
`m = 0` (with `exp = 0`), so value equality is structural equality. -/
structure Dbl where
  m : ℤ
  exp : ℤ
deriving DecidableEq, Repr

/-- Fuel-based bit length so that the kernel can evaluate it. -/
def natBitsAux : ℕ → ℕ → ℕ
  | 0, _ => 0
  | f + 1, n => if n = 0 then 0 else natBitsAux f (n / 2) + 1

/-- Bit length of a natural number: `natBits n = ⌊log2 n⌋ + 1` for n ≥ 1. -/
def natBits (n : ℕ) : ℕ := natBitsAux 4096 n

/-- Decides `n / d ≥ 2^E` for positive naturals n, d. -/
def fracGePow2 (n d : ℕ) (E : ℤ) : Bool :=
  if 0 ≤ E then d * 2 ^ E.toNat ≤ n else d ≤ n * 2 ^ (-E).toNat

/-- Computes `⌊log2 (n / d)⌋` for positive naturals n, d: the bit-length
difference is within one of the answer, fixed up by direct comparison. -/
def fracLog2 (n d : ℕ) : ℤ :=
  let c : ℤ := (natBits n : ℤ) - (natBits d : ℤ)
  if fracGePow2 n d (c + 1) then c + 1
  else if fracGePow2 n d c then c else c - 1

/-- Rounds the fraction `N / D` (D > 0) to the nearest integer, ties to
even. -/
def roundHalfEven (N D : ℤ) : ℤ :=
  let q := N.ediv D
  let r := N - q * D
  if 2 * r < D then q
  else if D < 2 * r then q + 1
  else if q.emod 2 = 0 then q else q + 1

/-- Fuel-based canonicalization: divide trailing factors of two out of
the mantissa. -/
def canonDblAux : ℕ → ℤ → ℤ → Dbl
  | 0, m, e => ⟨m, e⟩
  | f + 1, m, e =>
    if m = 0 then ⟨0, 0⟩
    else if m.emod 2 = 0 then canonDblAux f (m.ediv 2) (e + 1) else ⟨m, e⟩

/-- Canonical representation of the dyadic value `m * 2^e`. -/
def canonDbl (m e : ℤ) : Dbl := canonDblAux 4096 m e

/-- Rounds the positive rational `n / d` to the nearest binary64 value:
the unit in the last place is `2^(⌊log2 (n/d)⌋ - 52)`, clamped to
`2^-1074` in the subnormal range, and the mantissa is rounded half to
even. -/
def roundDblPos (n d : ℕ) : Dbl :=
  let E := fracLog2 n d
  let e : ℤ := if E - 52 < -1074 then -1074 else E - 52
  if 0 ≤ e then
    canonDbl (roundHalfEven (n : ℤ) ((d * 2 ^ e.toNat : ℕ) : ℤ)) e
  else
    canonDbl (roundHalfEven ((n * 2 ^ (-e).toNat : ℕ) : ℤ) ((d : ℕ) : ℤ)) e

/-- Rounds the rational `n / d` (d > 0) to the nearest binary64 value. -/
def roundDbl (n : ℤ) (d : ℕ) : Dbl :=
  if n = 0 then ⟨0, 0⟩
  else if 0 < n then roundDblPos n.toNat d
  else
    let p := roundDblPos (-n).toNat d
    ⟨-p.m, p.exp⟩

/-- The double a Python integer converts to. -/
def dblOfInt (n : ℤ) : Dbl := roundDbl n 1

/-- The double a Python decimal literal `n / d` parses to (e.g. the
literal 0.1 is `dblOfFrac 1 10`). -/
def dblOfFrac (n : ℤ) (d : ℕ) : Dbl := roundDbl n d

/-- Brings two doubles to a common exponent: returns `(ma, mb, e)` with
`a = ma * 2^e` and `b = mb * 2^e` exactly. -/
def dblAlign (a b : Dbl) : ℤ × ℤ × ℤ :=
  if a.exp ≤ b.exp then (a.m, b.m * ((2 ^ (b.exp - a.exp).toNat : ℕ) : ℤ), a.exp)
  else (a.m * ((2 ^ (a.exp - b.exp).toNat : ℕ) : ℤ), b.m, b.exp)

/-- Rounds the exact dyadic value `M * 2^e` to a double. -/
def roundScaled (M : ℤ) (e : ℤ) : Dbl :=
  if 0 ≤ e then roundDbl (M * ((2 ^ e.toNat : ℕ) : ℤ)) 1
  else roundDbl M (2 ^ (-e).toNat)

/-- IEEE-754 binary64 addition: round the exact sum. -/
def fpAdd (a b : Dbl) : Dbl :=
  roundScaled ((dblAlign a b).1 + (dblAlign a b).2.1) (dblAlign a b).2.2

/-- IEEE-754 binary64 subtraction: round the exact difference. -/
def fpSub (a b : Dbl) : Dbl :=
  roundScaled ((dblAlign a b).1 - (dblAlign a b).2.1) (dblAlign a b).2.2

/-- IEEE-754 binary64 multiplication: round the exact product. -/
def fpMul (a b : Dbl) : Dbl := roundScaled (a.m * b.m) (a.exp + b.exp)

/-- IEEE-754 binary64 division: round the exact quotient (b ≠ 0; Python
raises ZeroDivisionError on b = 0, which is not modelled and not reached
by any claim input). -/
def fpDiv (a b : Dbl) : Dbl :=
  let e := a.exp - b.exp
  let N : ℤ := if b.m < 0 then -a.m else a.m
  let D : ℕ := b.m.natAbs
  if 0 ≤ e then roundDbl (N * ((2 ^ e.toNat : ℕ) : ℤ)) D
  else roundDbl N (D * 2 ^ (-e).toNat)

/-- Exact difference of two double values as a dyadic pair `(M, e)`
meaning `a - b = M * 2^e` (no rounding). -/
def dblSubExactM (a b : Dbl) : ℤ × ℤ :=
  ((dblAlign a b).1 - (dblAlign a b).2.1, (dblAlign a b).2.2)

/-- Decides `|M * 2^e| > p / q` by integer arithmetic. -/
def absGtFrac (M e p : ℤ) (q : ℕ) : Bool :=
  if 0 ≤ e then p < (M.natAbs : ℤ) * ((2 ^ e.toNat : ℕ) : ℤ) * q
  else p * ((2 ^ (-e).toNat : ℤ)) < (M.natAbs : ℤ) * q

/-- Value order on doubles. -/
def dblLe (a b : Dbl) : Bool :=
  (dblAlign a b).1 ≤ (dblAlign a b).2.1

/-- The `BBox` dataclass with its float fields interpreted as the
binary64 values they hold at run time. -/
structure BBoxFp where
  x_min : Dbl
  y_min : Dbl
  x_max : Dbl
  y_max : Dbl
deriving DecidableEq, Repr

/-- Embeds `BBox.to_xywh` under binary64 arithmetic. -/
def BBoxFp.to_xywh (b : BBoxFp) : Dbl × Dbl × Dbl × Dbl :=
  (b.x_min, b.y_min, fpSub b.x_max b.x_min, fpSub b.y_max b.y_min)

/-- Embeds `BBox.from_xywh` under binary64 arithmetic. -/
def BBoxFp.from_xywh (x y w h : Dbl) : BBoxFp :=
  ⟨x, y, fpAdd x w, fpAdd y h⟩

/-- Embeds `BBox.to_yolo` under binary64 arithmetic (integer image
dimensions convert exactly to doubles at the magnitudes involved). -/
def BBoxFp.to_yolo (b : BBoxFp) (img_width img_height : ℤ) : Dbl × Dbl × Dbl × Dbl :=
  let width := fpSub b.x_max b.x_min
  let height := fpSub b.y_max b.y_min
  let x_center := fpAdd b.x_min (fpDiv width (dblOfInt 2))
  let y_center := fpAdd b.y_min (fpDiv height (dblOfInt 2))
  (fpDiv x_center (dblOfInt img_width), fpDiv y_center (dblOfInt img_height),
   fpDiv width (dblOfInt img_width), fpDiv height (dblOfInt img_height))

/-- Embeds `BBox.from_yolo` under binary64 arithmetic. -/
def BBoxFp.from_yolo (x_center y_center width height : Dbl)
    (img_width img_height : ℤ) : BBoxFp :=
  let w := fpMul width (dblOfInt img_width)
  let h := fpMul height (dblOfInt img_height)
  let x := fpSub (fpMul x_center (dblOfInt img_width)) (fpDiv w (dblOfInt 2))
  let y := fpSub (fpMul y_center (dblOfInt img_height)) (fpDiv h (dblOfInt 2))
  ⟨x, y, fpAdd x w, fpAdd y h⟩

/-- The box (6004799503160661, 0)-(8578285004515230, 1): all four corners
are integers, hence exactly representable doubles. -/
def c2FpBox : BBoxFp :=
  ⟨dblOfInt 6004799503160661, dblOfInt 0, dblOfInt 8578285004515230, dblOfInt 1⟩

/-- The binary64 `to_yolo` then `from_yolo` round trip of `c2FpBox` in a
3×1 image. -/
def c2FpRoundTrip : BBoxFp :=
  BBoxFp.from_yolo (c2FpBox.to_yolo 3 1).1 (c2FpBox.to_yolo 3 1).2.1
    (c2FpBox.to_yolo 3 1).2.2.1 (c2FpBox.to_yolo 3 1).2.2.2 3 1

/-- C1 (amended): over exact arithmetic the round trip is the identity —
for all x, y, w, h with w ≥ 0 and h ≥ 0, `to_xywh` applied to
`from_xywh(x, y, w, h)` returns exactly (x, y, w, h).  Under the IEEE-754
double arithmetic the program actually uses this exactness fails; see the
counterexample theorem. -/
theorem roundtrip_xywh_exact (x y w h : ℚ) (hw : 0 ≤ w) (hh : 0 ≤ h) :
    (BBox.from_xywh x y w h).to_xywh = (x, y, w, h) := by
  simp [BBox.from_xywh, BBox.to_xywh]

/-- Witness for `roundtrip_xywh_exact` at x=1, y=2, w=3, h=4. -/
theorem roundtrip_xywh_exact_witness :
    (0 : ℚ) ≤ 3 ∧ (0 : ℚ) ≤ 4 ∧
      (BBox.from_xywh 1 2 3 4).to_xywh = (1, 2, 3, 4) :=
  ⟨by norm_num, by norm_num, roundtrip_xywh_exact 1 2 3 4 (by norm_num) (by norm_num)⟩

set_option maxRecDepth 40000 in
/-- C1 counterexample: under the IEEE-754 binary64 arithmetic the program
actually uses, the round trip is not exact.  At x = 0.1, y = 0, w = 0.2,
h = 0 (so w ≥ 0 and h ≥ 0), the third component of
`to_xywh(from_xywh(x, y, w, h))`, namely (x+w)-x, is the double
0.20000000000000004 = 7205759403792795 * 2^-55, which differs from
w = 0.2 = 3602879701896397 * 2^-54. -/
theorem roundtrip_xywh_fp_counterexample :
    dblLe (dblOfInt 0) (dblOfFrac 2 10) = true ∧
    dblLe (dblOfInt 0) (dblOfInt 0) = true ∧
    (BBoxFp.from_xywh (dblOfFrac 1 10) (dblOfInt 0) (dblOfFrac 2 10)
        (dblOfInt 0)).to_xywh ≠
      (dblOfFrac 1 10, dblOfInt 0, dblOfFrac 2 10, dblOfInt 0) := by
  refine ⟨by decide, by decide, by decide⟩

/-- Helper: `from_yolo` of `to_yolo` reproduces the box exactly over ℚ
whenever the image dimensions are nonzero. -/
theorem from_yolo_to_yolo_exact (b : BBox) (W H : ℤ) (hW : W ≠ 0) (hH : H ≠ 0) :
    BBox.from_yolo (b.to_yolo W H).1 (b.to_yolo W H).2.1
      (b.to_yolo W H).2.2.1 (b.to_yolo W H).2.2.2 W H = b := by
  obtain ⟨x1, y1, x2, y2⟩ := b
  have hW' : (W : ℚ) ≠ 0 := Int.cast_ne_zero.mpr hW
  have hH' : (H : ℚ) ≠ 0 := Int.cast_ne_zero.mpr hH
  simp only [BBox.to_yolo, BBox.from_yolo, BBox.mk.injEq]
  refine ⟨?_, ?_, ?_, ?_⟩ <;> field_simp <;> ring

/-- C2 (amended): over exact arithmetic, for every box with
x_max ≥ x_min, y_max ≥ y_min and positive integer image dimensions,
`from_yolo` applied to the values produced by `to_yolo` reproduces the
corners exactly, so in particular within 1e-4.  Under the IEEE-754 double
arithmetic the program actually uses, the universally quantified 1e-4
bound fails at large-magnitude corners; see the counterexample theorem. -/
theorem roundtrip_yolo_within_tolerance (b : BBox) (W H : ℤ)
    (hx : b.x_min ≤ b.x_max) (hy : b.y_min ≤ b.y_max)
    (hW : 0 < W) (hH : 0 < H) :
    |(BBox.from_yolo (b.to_yolo W H).1 (b.to_yolo W H).2.1
        (b.to_yolo W H).2.2.1 (b.to_yolo W H).2.2.2 W H).x_min - b.x_min| ≤ 1 / 10000 ∧
    |(BBox.from_yolo (b.to_yolo W H).1 (b.to_yolo W H).2.1
        (b.to_yolo W H).2.2.1 (b.to_yolo W H).2.2.2 W H).y_min - b.y_min| ≤ 1 / 10000 ∧
    |(BBox.from_yolo (b.to_yolo W H).1 (b.to_yolo W H).2.1
        (b.to_yolo W H).2.2.1 (b.to_yolo W H).2.2.2 W H).x_max - b.x_max| ≤ 1 / 10000 ∧
    |(BBox.from_yolo (b.to_yolo W H).1 (b.to_yolo W H).2.1
        (b.to_yolo W H).2.2.1 (b.to_yolo W H).2.2.2 W H).y_max - b.y_max| ≤ 1 / 10000 := by
  have hb := from_yolo_to_yolo_exact b W H (by omega) (by omega)
  rw [hb]
  norm_num

/-- Witness for `roundtrip_yolo_within_tolerance` at the box (10,20)-(50,80)
in a 100×200 image. -/
theorem roundtrip_yolo_within_tolerance_witness :
    (BBox.mk 10 20 50 80).x_min ≤ (BBox.mk 10 20 50 80).x_max ∧
    (BBox.mk 10 20 50 80).y_min ≤ (BBox.mk 10 20 50 80).y_max ∧
    (0 : ℤ) < 100 ∧ (0 : ℤ) < 200 ∧
    |(BBox.from_yolo ((BBox.mk 10 20 50 80).to_yolo 100 200).1
        ((BBox.mk 10 20 50 80).to_yolo 100 200).2.1
        ((BBox.mk 10 20 50 80).to_yolo 100 200).2.2.1
        ((BBox.mk 10 20 50 80).to_yolo 100 200).2.2.2 100 200).x_min -
      (BBox.mk 10 20 50 80).x_min| ≤ 1 / 10000 :=
  ⟨by norm_num, by norm_num, by norm_num, by norm_num,
    (roundtrip_yolo_within_tolerance (BBox.mk 10 20 50 80) 100 200
      (by norm_num) (by norm_num) (by norm_num) (by norm_num)).1⟩

set_option maxRecDepth 40000 in
/-- C2 counterexample: under IEEE-754 binary64 arithmetic the 1e-4 bound
fails.  For the box (6004799503160661, 0)-(8578285004515230, 1) — all
corners exactly representable, x_max ≥ x_min and y_max ≥ y_min — in a
3×1 image, `from_yolo` applied to the `to_yolo` output returns
x_max = 8578285004515231, off from the original x_max by exactly 1.0,
far above the 1e-4 tolerance (x_min also comes back off by 1.0). -/
theorem roundtrip_yolo_fp_counterexample :
    dblLe c2FpBox.x_min c2FpBox.x_max = true ∧
    dblLe c2FpBox.y_min c2FpBox.y_max = true ∧
    (0 : ℤ) < 3 ∧ (0 : ℤ) < 1 ∧
    absGtFrac (dblSubExactM c2FpRoundTrip.x_max c2FpBox.x_max).1
      (dblSubExactM c2FpRoundTrip.x_max c2FpBox.x_max).2 1 10000 = true := by
  refine ⟨by decide, by decide, by decide, by decide, by decide⟩

/-- Python exceptions relevant to the embedded code paths. -/
inductive PyErr where
  | valueError
  | indexError
deriving DecidableEq, Repr

/-- Embeds Python `str.strip()` with no arguments: drop leading and
trailing whitespace. -/
def pyStrip (s : String) : String :=
  String.mk (((s.data.dropWhile Char.isWhitespace).reverse.dropWhile
    Char.isWhitespace).reverse)

/-- Accumulator loop for `pySplitWs`: the current token is collected in
reverse in `acc`. -/
def pySplitWsAux : List Char → List Char → List String
  | [], acc => if acc.isEmpty then [] else [String.mk acc.reverse]
  | c :: rest, acc =>
    if c.isWhitespace then
      if acc.isEmpty then pySplitWsAux rest []
      else String.mk acc.reverse :: pySplitWsAux rest []
    else pySplitWsAux rest (c :: acc)

/-- Embeds Python `str.split()` with no arguments: split on runs of
whitespace, discarding empty pieces. -/
def pySplitWs (s : String) : List String :=
  pySplitWsAux s.data []

/-- Digits of a numeral folded into a natural number. -/
def charsToNat (cs : List Char) : ℕ :=
  cs.foldl (fun acc c => acc * 10 + (c.toNat - 48)) 0

/-- All-digit character list parsed to a natural number, `none` otherwise. -/
def parseDigits (cs : List Char) : Option ℕ :=
  if !cs.isEmpty && cs.all Char.isDigit then some (charsToNat cs) else none

/-- Optional sign followed by digits, parsed to an integer. -/
def parseSignedInt (cs : List Char) : Option ℤ :=
  match cs with
  | '-' :: rest => (parseDigits rest).map (fun n => -(n : ℤ))
  | '+' :: rest => (parseDigits rest).map (fun n => (n : ℤ))
  | _ => (parseDigits cs).map (fun n => (n : ℤ))

/-- Embeds Python `int(str)` on the subset of inputs the claims exercise:
an optional sign followed by decimal digits (whitespace padding and
underscore separators accepted by Python are not modelled). -/
def pyParseInt (s : String) : Option ℤ :=
  parseSignedInt s.data

/-- Power of ten with an integer exponent, kept division-free on ℚ. -/
def qpow10 (e : ℤ) : ℚ :=
  if 0 ≤ e then (10 : ℚ) ^ e.toNat else 1 / (10 : ℚ) ^ (-e).toNat

/-- Unsigned decimal mantissa `digits[.digits]` with at least one digit. -/
def parseMantissa (cs : List Char) : Option ℚ :=
  let ip := cs.takeWhile Char.isDigit
  let rest := cs.dropWhile Char.isDigit
  match rest with
  | [] => if ip.isEmpty then none else some ((charsToNat ip : ℚ))
  | '.' :: fq =>
    if fq.all Char.isDigit && !(ip.isEmpty && fq.isEmpty) then
      some ((charsToNat ip : ℚ) + (charsToNat fq : ℚ) / (10 : ℚ) ^ fq.length)
    else none
  | _ => none

/-- Magnitude of a float literal: mantissa with optional `e`/`E` exponent. -/
def parseFloatMag (cs : List Char) : Option ℚ :=
  let mant := cs.takeWhile (fun c => c != 'e' && c != 'E')
  let rest := cs.dropWhile (fun c => c != 'e' && c != 'E')
  match parseMantissa mant with
  | none => none
  | some m =>
    match rest with
    | [] => some m
    | _ :: ecs =>
      match parseSignedInt ecs with
      | some e => some (m * qpow10 e)
      | none => none

/-- Embeds Python `float(str)` on the subset of inputs the claims exercise:
optional sign, decimal digits with optional fraction and optional exponent
(`inf`, `nan`, whitespace padding and underscores are not modelled). -/
def pyParseFloat (s : String) : Option ℚ :=
  match s.data with
  | '-' :: rest => (parseFloatMag rest).map (fun q => -q)
  | '+' :: rest => parseFloatMag rest
  | cs => parseFloatMag cs

/-- Python list indexing adjustment: negative indices count from the end. -/
def pyIndexAdjust (n : ℕ) (i : ℤ) : ℤ :=
  if i < 0 then (n : ℤ) + i else i

/-- Embeds Python list subscription `l[i]`: negative indices wrap once from
the end; out-of-range access raises `IndexError`. -/
def pyListGet (l : List String) (i : ℤ) : Except PyErr String :=
  if hj : 0 ≤ pyIndexAdjust l.length i ∧ pyIndexAdjust l.length i < (l.length : ℤ) then
    Except.ok (l.get ⟨(pyIndexAdjust l.length i).toNat, by omega⟩)
  else Except.error PyErr.indexError

/-- Reading a list at a negative in-range index returns the element at
position `length + i`, per Python negative indexing. -/
theorem pyListGet_neg (l : List String) (i : ℤ)
    (h1 : -(l.length : ℤ) ≤ i) (h2 : i < 0) :
    ∃ hix : ((l.length : ℤ) + i).toNat < l.length,
      pyListGet l i = Except.ok (l.get ⟨((l.length : ℤ) + i).toNat, hix⟩) := by
  have hadj : pyIndexAdjust l.length i = (l.length : ℤ) + i := if_pos h2
  have hix : ((l.length : ℤ) + i).toNat < l.length := by omega
  refine ⟨hix, ?_⟩
  unfold pyListGet
  rw [dif_pos (by rw [hadj]; omega :
    0 ≤ pyIndexAdjust l.length i ∧ pyIndexAdjust l.length i < (l.length : ℤ))]
  exact congrArg Except.ok (congrArg l.get (Fin.ext
    (show (pyIndexAdjust l.length i).toNat = ((l.length : ℤ) + i).toNat by rw [hadj])))

/-- Reading a list below the negative index range raises `IndexError`. -/
theorem pyListGet_neg_oob (l : List String) (i : ℤ)
    (h1 : i < -(l.length : ℤ)) :
    pyListGet l i = Except.error PyErr.indexError := by
  have hadj : pyIndexAdjust l.length i = (l.length : ℤ) + i := if_pos (by omega)
  unfold pyListGet
  rw [dif_neg (by rw [hadj]; omega)]

/-- Embeds the annotation-building tail of `YOLOReader.read`'s line loop
(yolo.py lines 100-106): the bbox conversion and the conditional
`class_names[class_id] if class_id < len(class_names) else 'unknown'`,
with the `Annotation` constructed on its dataclass defaults. -/
def yoloMakeAnn (class_names : List String) (width height : ℤ)
    (class_id : ℤ) (x_center y_center w h : ℚ) : Except PyErr Ann :=
  let bbox := BBox.from_yolo x_center y_center w h width height
  if class_id < (class_names.length : ℤ) then
    match pyListGet class_names class_id with
    | Except.ok nm => Except.ok (mkAnnDefaults bbox class_id nm)
    | Except.error e => Except.error e
  else Except.ok (mkAnnDefaults bbox class_id "unknown")

/-- Embeds one iteration of `YOLOReader.read`'s per-line loop (yolo.py
lines 87-107): strip, skip blank lines, skip lines that do not split into
exactly 5 tokens, then parse the class id and the four floats (a parse
failure raises `ValueError`). `ok none` means the line was skipped. -/
def yoloProcessLine (class_names : List String) (width height : ℤ) (line : String) :
    Except PyErr (Option Ann) :=
  let t := pyStrip line
  if t = "" then Except.ok none
  else
    let parts := pySplitWs t
    if parts.length ≠ 5 then Except.ok none
    else
      match pyParseInt (parts.getD 0 ""), pyParseFloat (parts.getD 1 ""),
            pyParseFloat (parts.getD 2 ""), pyParseFloat (parts.getD 3 ""),
            pyParseFloat (parts.getD 4 "") with
      | some cid, some xc, some yc, some bw, some bh =>
        match yoloMakeAnn class_names width height cid xc yc bw bh with
        | Except.ok a => Except.ok (some a)
        | Except.error e => Except.error e
      | _, _, _, _, _ => Except.error PyErr.valueError

/-- Embeds the whole per-file line loop of `YOLOReader.read`: annotations
of the well-formed lines in order; an uncaught exception aborts the read. -/
def yoloReadLines (class_names : List String) (width height : ℤ) :
    List String → Except PyErr (List Ann)
  | [] => Except.ok []
  | line :: rest =>
    match yoloProcessLine class_names width height line with
    | Except.error e => Except.error e
    | Except.ok none => yoloReadLines class_names width height rest
    | Except.ok (some a) =>
      match yoloReadLines class_names width height rest with
      | Except.error e => Except.error e
      | Except.ok tail => Except.ok (a :: tail)

/-- A non-blank line whose whitespace split is not exactly 5 tokens. -/
def isBadTokenCount (line : String) : Bool :=
  pyStrip line != "" && (pySplitWs (pyStrip line)).length != 5

/-- A wrong-token-count line is skipped: the line loop yields no
annotation and no exception for it. -/
theorem processLine_skip_of_badTokenCount (cn : List String) (w h : ℤ) (l : String)
    (hb : isBadTokenCount l = true) :
    yoloProcessLine cn w h l = Except.ok none := by
  unfold isBadTokenCount at hb
  simp only [Bool.and_eq_true, bne_iff_ne, ne_eq] at hb
  obtain ⟨h1, h2⟩ := hb
  unfold yoloProcessLine
  simp [h1, h2]

/-- C5: every non-blank line that does not split into exactly 5
whitespace-separated tokens is silently skipped while every other line is
processed exactly as before: deleting the wrong-token-count lines from a
label file never changes the result of the per-file loop (in particular,
such a line can neither abort processing nor disturb the annotations
produced by the well-formed lines). -/
theorem yolo_wrong_token_count_skipped (cn : List String) (w h : ℤ)
    (lines : List String) :
    yoloReadLines cn w h lines =
      yoloReadLines cn w h (lines.filter (fun l => !isBadTokenCount l)) := by
  induction lines with
  | nil => rfl
  | cons l rest ih =>
    rw [List.filter_cons]
    by_cases hb : isBadTokenCount l = true
    · have hl := processLine_skip_of_badTokenCount cn w h l hb
      simp only [hb, Bool.not_true, if_neg Bool.false_ne_true]
      rw [yoloReadLines, hl]
      exact ih
    · have hb' : isBadTokenCount l = false := by
        cases hf : isBadTokenCount l
        · rfl
        · exact absurd hf hb
      simp only [hb', Bool.not_false, if_pos]
      rw [yoloReadLines, yoloReadLines]
      cases hpl : yoloProcessLine cn w h l with
      | error e => rfl
      | ok oa =>
        cases oa with
        | none => exact ih
        | some a => rw [ih]

/-- C9: a 5-token line whose first token is not a valid integer makes the
per-file loop raise an uncaught `ValueError`, aborting the read (the
annotation of the preceding well-formed line is lost as well), rather than
being skipped like a wrong-token-count line. -/
theorem yolo_nonnumeric_token_aborts :
    yoloReadLines ["dog"] 100 100 ["0 0.5 0.5 0.2 0.2", "x 0.5 0.5 0.2 0.2"] =
      Except.error PyErr.valueError := by
  rfl

/-- C10: with n = number of class names (n ≥ 1), a parsed class id c with
-n ≤ c ≤ -1 is stored as-is as the category id and the category name is
taken from position n + c of the class list (Python negative indexing, no
"unknown" sentinel); a class id c < -n raises an uncaught `IndexError`. -/
theorem yolo_negative_class_id (cns : List String) (w h cid : ℤ) (xc yc bw bh : ℚ)
    (hn : 1 ≤ cns.length) :
    ((-(cns.length : ℤ) ≤ cid ∧ cid ≤ -1) →
      ∃ hix : ((cns.length : ℤ) + cid).toNat < cns.length,
        yoloMakeAnn cns w h cid xc yc bw bh =
          Except.ok (mkAnnDefaults (BBox.from_yolo xc yc bw bh w h) cid
            (cns.get ⟨((cns.length : ℤ) + cid).toNat, hix⟩))) ∧
    (cid < -(cns.length : ℤ) →
      yoloMakeAnn cns w h cid xc yc bw bh = Except.error PyErr.indexError) := by
  constructor
  · rintro ⟨hlb, hub⟩
    have hlt : cid < (cns.length : ℤ) := by omega
    obtain ⟨hix, hget⟩ := pyListGet_neg cns cid hlb (by omega)
    refine ⟨hix, ?_⟩
    unfold yoloMakeAnn
    rw [if_pos hlt, hget]
  · intro hlow
    have hlt : cid < (cns.length : ℤ) := by omega
    unfold yoloMakeAnn
    rw [if_pos hlt, pyListGet_neg_oob cns cid hlow]

/-- Witness for `yolo_negative_class_id` with class list ["a", "b"] and
class id -1: the last class name "b" is used, not the "unknown" sentinel. -/
theorem yolo_negative_class_id_witness :
    1 ≤ (["a", "b"] : List String).length ∧
    yoloMakeAnn ["a", "b"] 10 10 (-1) 0 0 0 0 =
      Except.ok (mkAnnDefaults (BBox.from_yolo 0 0 0 0 10 10) (-1) "b") := by
  refine ⟨by decide, ?_⟩
  obtain ⟨hix, heq⟩ :=
    (yolo_negative_class_id ["a", "b"] 10 10 (-1) 0 0 0 0 (by decide)).1 (by decide)
  rw [heq]
  rfl

/-- Embeds a category dict as emitted by `COCOWriter.write`; the
`supercategory` key is present only when the field is truthy. -/
structure CocoCatDict where
  id : ℤ
  name : String
  supercategory : Option String
deriving DecidableEq, Repr

/-- Embeds an image dict as emitted by `COCOWriter.write`. -/
structure CocoImageDict where
  id : ℤ
  file_name : String
  width : ℤ
  height : ℤ
deriving DecidableEq, Repr

/-- Embeds an annotation dict as emitted by `COCOWriter.write`. -/
structure CocoAnnDict where
  id : ℤ
  image_id : ℤ
  category_id : ℤ
  bbox : List ℚ
  area : Option ℚ
  iscrowd : ℤ
  segmentation : List (List ℚ)
deriving DecidableEq, Repr

/-- Embeds the top-level `coco_data` object written by `COCOWriter.write`
(the JSON serialization itself is not modelled). -/
structure CocoData where
  info : List (String × String)
  licenses : List String
  categories : List CocoCatDict
  images : List CocoImageDict
  annotations : List CocoAnnDict
deriving DecidableEq, Repr

/-- The `ann_dict` built in `COCOWriter.write`'s inner loop: bbox in
[x, y, width, height] form, pass-through area and iscrowd, and an
always-empty segmentation list. -/
def mkCocoAnnDict (ann_id image_id : ℤ) (a : Ann) : CocoAnnDict :=
  ⟨ann_id, image_id, a.category_id,
   [a.bbox.to_xywh.1, a.bbox.to_xywh.2.1, a.bbox.to_xywh.2.2.1, a.bbox.to_xywh.2.2.2],
   a.area, a.iscrowd, []⟩

/-- Embeds the inner annotation loop of `COCOWriter.write` for one image:
the running `annotation_id` counter is threaded explicitly. -/
def cocoAnnDicts : List Ann → ℤ → ℤ → List CocoAnnDict
  | [], _, _ => []
  | a :: rest, imgId, annId =>
    mkCocoAnnDict annId imgId a :: cocoAnnDicts rest imgId (annId + 1)

/-- Embeds the image loop of `COCOWriter.write` (coco.py lines 111-138):
`idx` is the 1-based `enumerate` counter, `annId` the running annotation
id.  Returns the image dicts, the flattened annotation dicts, and the
(mutated) image list: an image lacking an id gets `image.image_id = idx`
assigned in place. -/
def cocoProcessImages : List Image → ℤ → ℤ →
    List CocoImageDict × List CocoAnnDict × List Image
  | [], _, _ => ([], [], [])
  | img :: rest, idx, annId =>
    let effId := img.image_id.getD idx
    let r := cocoProcessImages rest (idx + 1) (annId + (img.annotations.length : ℤ))
    (⟨effId, img.file_name, img.width, img.height⟩ :: r.1,
     cocoAnnDicts img.annotations effId annId ++ r.2.1,
     ⟨img.file_name, img.width, img.height, img.annotations, some effId⟩ :: r.2.2)

/-- The category dict of `COCOWriter.write`: the `supercategory` key is
emitted only under Python truthiness (absent for `None` and for `""`). -/
def cocoCatDict (c : Category) : CocoCatDict :=
  ⟨c.id, c.name,
   match c.supercategory with
   | none => none
   | some s => if s = "" then none else some s⟩

/-- Embeds `COCOWriter.write`: produces the serialized object and the
dataset state after the write (the writer mutates `image.image_id`). -/
def cocoWrite (ds : Dataset) : CocoData × Dataset :=
  let r := cocoProcessImages ds.images 1 1
  (⟨ds.info, [], ds.categories.map cocoCatDict, r.1, r.2.1⟩,
   ⟨r.2.2, ds.categories, ds.info⟩)

/-- Specification-side list of consecutive integers [start, start+n). -/
def intRange (start : ℤ) : ℕ → List ℤ
  | 0 => []
  | n + 1 => start :: intRange (start + 1) n

/-- Each image paired with its effective COCO id: its own id when present,
its position (counted from `start`) otherwise. -/
def effectivePairs (imgs : List Image) (start : ℤ) : List (ℤ × Image) :=
  List.zipWith (fun img eid => (img.image_id.getD eid, img)) imgs
    (intRange start imgs.length)

/-- The flattened annotation sequence in image order, each annotation
paired with its image's effective id. -/
def flatAnnPairs (imgs : List Image) (start : ℤ) : List (ℤ × Ann) :=
  (effectivePairs imgs start).flatMap (fun p => p.2.annotations.map (fun a => (p.1, a)))

theorem intRange_length (start : ℤ) (n : ℕ) : (intRange start n).length = n := by
  induction n generalizing start with
  | zero => rfl
  | succ m ih => simp [intRange, ih]

theorem intRange_append (start : ℤ) (m n : ℕ) :
    intRange start (m + n) = intRange start m ++ intRange (start + m) n := by
  induction m generalizing start with
  | zero => simp [intRange]
  | succ k ih =>
    rw [Nat.succ_add]
    show start :: intRange (start + 1) (k + n) = _
    rw [ih]
    have harg : start + 1 + (k : ℤ) = start + ((k + 1 : ℕ) : ℤ) := by push_cast; ring
    rw [harg]
    rfl

theorem effectivePairs_cons (img : Image) (rest : List Image) (start : ℤ) :
    effectivePairs (img :: rest) start =
      (img.image_id.getD start, img) :: effectivePairs rest (start + 1) := rfl

theorem flatAnnPairs_cons (img : Image) (rest : List Image) (start : ℤ) :
    flatAnnPairs (img :: rest) start =
      img.annotations.map (fun a => (img.image_id.getD start, a)) ++
        flatAnnPairs rest (start + 1) := by
  rw [flatAnnPairs, effectivePairs_cons, List.flatMap_cons]
  rfl

/-- The threaded inner loop equals a position-indexed description. -/
theorem cocoAnnDicts_eq_zipWith (anns : List Ann) (imgId annId : ℤ) :
    cocoAnnDicts anns imgId annId =
      List.zipWith (fun a i => mkCocoAnnDict i imgId a) anns
        (intRange annId anns.length) := by
  induction anns generalizing annId with
  | nil => rfl
  | cons a rest ih =>
    show mkCocoAnnDict annId imgId a :: cocoAnnDicts rest imgId (annId + 1) = _
    rw [ih]
    rfl

/-- zipWith that only keeps its second argument is the identity on it when
the lengths agree. -/
theorem zipWith_snd_of_length_eq {α : Type} (l : List α) (r : List ℤ)
    (h : l.length = r.length) :
    List.zipWith (fun _ i => i) l r = r := by
  induction l generalizing r with
  | nil =>
    cases r with
    | nil => rfl
    | cons x xs => simp at h
  | cons a tl ih =>
    cases r with
    | nil => simp at h
    | cons x xs =>
      simp only [List.zipWith_cons_cons]
      rw [ih xs (by simpa using h)]

/-- Master characterization of the `COCOWriter.write` image loop: image
dicts carry the effective ids, annotation dicts are the flattened
annotation sequence indexed consecutively from `annId`, and the mutated
image list has every `image_id` forced to its effective id. -/
theorem cocoProcessImages_spec (imgs : List Image) (idx annId : ℤ) :
    cocoProcessImages imgs idx annId =
      ((effectivePairs imgs idx).map (fun p => ⟨p.1, p.2.file_name, p.2.width, p.2.height⟩),
       List.zipWith (fun p i => mkCocoAnnDict i p.1 p.2) (flatAnnPairs imgs idx)
         (intRange annId (flatAnnPairs imgs idx).length),
       (effectivePairs imgs idx).map
         (fun p => ⟨p.2.file_name, p.2.width, p.2.height, p.2.annotations, some p.1⟩)) := by
  induction imgs generalizing idx annId with
  | nil => rfl
  | cons img rest ih =>
    have hlen : (img.annotations.map
        (fun a => (img.image_id.getD idx, a))).length = img.annotations.length :=
      List.length_map _ _
    show (⟨img.image_id.getD idx, img.file_name, img.width, img.height⟩ ::
        (cocoProcessImages rest (idx + 1) (annId + (img.annotations.length : ℤ))).1,
      cocoAnnDicts img.annotations (img.image_id.getD idx) annId ++
        (cocoProcessImages rest (idx + 1) (annId + (img.annotations.length : ℤ))).2.1,
      ⟨img.file_name, img.width, img.height, img.annotations, some (img.image_id.getD idx)⟩ ::
        (cocoProcessImages rest (idx + 1) (annId + (img.annotations.length : ℤ))).2.2) = _
    rw [ih]
    refine congrArg₂ _ ?_ (congrArg₂ _ ?_ ?_)
    · rw [effectivePairs_cons]
      rfl
    · rw [flatAnnPairs_cons, List.length_append, hlen,
        intRange_append annId img.annotations.length (flatAnnPairs rest (idx + 1)).length,
        List.zipWith_append _ _ _ _ _ (by rw [hlen, intRange_length]),
        List.zipWith_map_left]
      rw [cocoAnnDicts_eq_zipWith]
    · rw [effectivePairs_cons]
      rfl

/-- Embeds `pathlib.Path(name).stem`: the final path component with its
last extension removed (the Python dotfile edge case, where a leading dot
does not start a suffix, is not modelled; no claim exercises it). -/
def pathStem (s : String) : String :=
  let base := (s.splitOn "/").getLastD s
  let parts := base.splitOn "."
  if parts.length ≤ 1 then base
  else String.intercalate "." parts.dropLast

/-- One line of a YOLO label file as written by `YOLOWriter.write`.  The
four normalized values are kept as exact rationals; the `%.6f` textual
formatting of the source is not modelled. -/
structure YoloLabelLine where
  category_id : ℤ
  x_center : ℚ
  y_center : ℚ
  width : ℚ
  height : ℚ
deriving DecidableEq, Repr

/-- The files produced by `YOLOWriter.write`: the classes file (one
category name per line, sorted by id) and one label file per image. -/
structure YoloOut where
  classes_lines : List String
  label_files : List (String × List YoloLabelLine)
deriving DecidableEq, Repr

/-- Embeds `YOLOWriter.write` (yolo.py lines 118-158): it only reads the
dataset, so the dataset state after the write is returned unchanged. -/
def yoloWrite (ds : Dataset) : YoloOut × Dataset :=
  let sorted_categories := List.insertionSort (fun a b : Category => a.id ≤ b.id) ds.categories
  (⟨sorted_categories.map (fun c => c.name),
    ds.images.map (fun img =>
      (pathStem img.file_name ++ ".txt",
       img.annotations.map (fun a =>
         ⟨a.category_id, (a.bbox.to_yolo img.width img.height).1,
          (a.bbox.to_yolo img.width img.height).2.1,
          (a.bbox.to_yolo img.width img.height).2.2.1,
          (a.bbox.to_yolo img.width img.height).2.2.2⟩)))⟩,
   ds)

/-- Embeds Python `int(float)`: truncation toward zero. -/
def pyTrunc (q : ℚ) : ℤ :=
  if 0 ≤ q then ⌊q⌋ else ⌈q⌉

/-- One `object` block of a written Pascal VOC XML file. -/
structure VocObjOut where
  name : String
  pose : String
  truncated : String
  difficult : String
  xmin : ℤ
  ymin : ℤ
  xmax : ℤ
  ymax : ℤ
deriving DecidableEq, Repr

/-- One XML file written by `PascalVOCWriter.write`, fields in document
order (numeric fields kept numeric; their `str(...)` rendering and the
XML pretty-printing are not modelled). -/
structure VocFileOut where
  xml_name : String
  folder : String
  filename : String
  path : String
  database : String
  width : ℤ
  height : ℤ
  depth : String
  segmented : String
  objects : List VocObjOut
deriving DecidableEq, Repr

/-- Embeds `PascalVOCWriter.write` (pascal_voc.py lines 148-226): it only
reads the dataset, so the dataset state after the write is unchanged. -/
def vocWrite (ds : Dataset) : List VocFileOut × Dataset :=
  (ds.images.map (fun img =>
    ⟨pathStem img.file_name ++ ".xml", "images", img.file_name, img.file_name,
     "Unknown", img.width, img.height, "3", "0",
     img.annotations.map (fun a =>
       ⟨a.category_name, "Unspecified",
        if a.truncated then "1" else "0",
        if a.difficult then "1" else "0",
        pyTrunc a.bbox.x_min, pyTrunc a.bbox.y_min,
        pyTrunc a.bbox.x_max, pyTrunc a.bbox.y_max⟩)⟩),
   ds)

/-- A dataset with a single image whose `image_id` is absent. -/
def exMutDataset : Dataset :=
  ⟨[⟨ "img1.jpg", 10, 10, [], none⟩], [], []⟩

/-- C3 counterexample: the COCO writer does NOT leave the dataset
unchanged — on a dataset whose only image has no `image_id` the write
assigns `image_id = 1` in place, so the dataset after the write differs
from the dataset before it. -/
theorem coco_writer_mutates_dataset :
    (cocoWrite exMutDataset).2 ≠ exMutDataset := by
  decide

/-- C3 amended: the YOLO and Pascal VOC writers leave the dataset
unchanged; the COCO writer leaves the categories, the info mapping, and
every image field except `image_id` unchanged, but sets each image's
`image_id` to its effective id (its own id when present, its 1-based
position otherwise). -/
theorem writers_dataset_effect (ds : Dataset) :
    (yoloWrite ds).2 = ds ∧ (vocWrite ds).2 = ds ∧
    (cocoWrite ds).2 =
      ⟨(effectivePairs ds.images 1).map
        (fun p => ⟨p.2.file_name, p.2.width, p.2.height, p.2.annotations, some p.1⟩),
       ds.categories, ds.info⟩ := by
  refine ⟨rfl, rfl, ?_⟩
  show (⟨(cocoProcessImages ds.images 1 1).2.2, ds.categories, ds.info⟩ : Dataset) = _
  rw [cocoProcessImages_spec]

/-- C6: the COCO writer emits, for the i-th image (1-based), an image dict
whose id is the image's own id when present and i otherwise, and emits the
flattened annotation list in image order with ids 1, 2, 3, ..., each dict
carrying the annotation's bbox as [x, y, width, height], its area, its
iscrowd flag, and an empty segmentation list. -/
theorem coco_writer_output (ds : Dataset) :
    (cocoWrite ds).1.images =
      (effectivePairs ds.images 1).map
        (fun p => ⟨p.1, p.2.file_name, p.2.width, p.2.height⟩) ∧
    (cocoWrite ds).1.annotations =
      List.zipWith (fun p i => mkCocoAnnDict i p.1 p.2) (flatAnnPairs ds.images 1)
        (intRange 1 (flatAnnPairs ds.images 1).length) ∧
    (cocoWrite ds).1.annotations.map (fun d => d.id) =
      intRange 1 (flatAnnPairs ds.images 1).length := by
  have h1 : (cocoWrite ds).1.images = (cocoProcessImages ds.images 1 1).1 := rfl
  have h2 : (cocoWrite ds).1.annotations = (cocoProcessImages ds.images 1 1).2.1 := rfl
  rw [cocoProcessImages_spec] at h1 h2
  refine ⟨h1, h2, ?_⟩
  rw [h2, List.map_zipWith]
  exact zipWith_snd_of_length_eq _ _ (by rw [intRange_length])

/-- Lexicographic less-or-equal on character lists by code point, the
order Python's `sorted` uses on strings. -/
def pyStrLeChars : List Char → List Char → Bool
  | [], _ => true
  | _ :: _, [] => false
  | a :: as1, b :: bs1 =>
    if a = b then pyStrLeChars as1 bs1 else decide (a.toNat < b.toNat)

/-- Lexicographic string comparison by code point (Python `<=`). -/
def pyStrLe (a b : String) : Bool :=
  pyStrLeChars a.data b.data

theorem pyStrLeChars_total : ∀ as bs : List Char,
    pyStrLeChars as bs = true ∨ pyStrLeChars bs as = true
  | [], [] => Or.inl rfl
  | [], _ :: _ => Or.inl rfl
  | _ :: _, [] => Or.inr rfl
  | a :: as1, b :: bs1 => by
    by_cases hab : a = b
    · subst hab
      simpa [pyStrLeChars] using pyStrLeChars_total as1 bs1
    · have hne : a.toNat ≠ b.toNat := fun hv => hab (Char.ext (UInt32.ext hv))
      simp only [pyStrLeChars, if_neg hab, if_neg (Ne.symm hab), decide_eq_true_eq]
      omega

theorem pyStrLeChars_trans : ∀ as bs cs : List Char,
    pyStrLeChars as bs = true → pyStrLeChars bs cs = true → pyStrLeChars as cs = true
  | [], _, _ => fun _ _ => rfl
  | _ :: _, [], _ => fun hab _ => by simp [pyStrLeChars] at hab
  | _ :: _, _ :: _, [] => fun _ hbc => by simp [pyStrLeChars] at hbc
  | a :: as1, b :: bs1, c :: cs1 => by
    intro hab hbc
    by_cases h1 : a = b
    · subst h1
      by_cases h2 : a = c
      · subst h2
        simp only [pyStrLeChars, if_pos rfl] at hab hbc ⊢
        exact pyStrLeChars_trans as1 bs1 cs1 hab hbc
      · simpa [pyStrLeChars, h2] using (by simpa [pyStrLeChars, h2] using hbc)
    · have hvab : a.toNat < b.toNat := by
        simpa [pyStrLeChars, h1] using hab
      by_cases h2 : b = c
      · subst h2
        have h3 : a ≠ b := h1
        simp [pyStrLeChars, h3, hvab]
      · have hvbc : b.toNat < c.toNat := by
          simpa [pyStrLeChars, h2] using hbc
        have h3 : a ≠ c := fun hac => by
          subst hac
          omega
        simp only [pyStrLeChars, if_neg h3, decide_eq_true_eq]
        omega

theorem pyStrLeChars_antisymm : ∀ as bs : List Char,
    pyStrLeChars as bs = true → pyStrLeChars bs as = true → as = bs
  | [], [] => fun _ _ => rfl
  | [], _ :: _ => fun _ hba => by simp [pyStrLeChars] at hba
  | _ :: _, [] => fun hab _ => by simp [pyStrLeChars] at hab
  | a :: as1, b :: bs1 => by
    intro hab hba
    by_cases h1 : a = b
    · subst h1
      simp only [pyStrLeChars, if_pos rfl] at hab hba
      rw [pyStrLeChars_antisymm as1 bs1 hab hba]
    · have hvab : a.toNat < b.toNat := by
        simpa [pyStrLeChars, h1] using hab
      have hvba : b.toNat < a.toNat := by
        simpa [pyStrLeChars, Ne.symm h1] using hba
      omega

instance : IsTotal String (fun a b => pyStrLe a b = true) :=
  ⟨fun a b => pyStrLeChars_total a.data b.data⟩

instance : IsTrans String (fun a b => pyStrLe a b = true) :=
  ⟨fun a b c => pyStrLeChars_trans a.data b.data c.data⟩

instance : IsAntisymm String (fun a b => pyStrLe a b = true) := by
  refine ⟨fun a b hab hba => ?_⟩
  obtain ⟨da⟩ := a
  obtain ⟨db⟩ := b
  exact congrArg String.mk (pyStrLeChars_antisymm da db hab hba)

/-- A parsed `object` element of a Pascal VOC XML file: each sub-element's
text is `none` when the element is missing or has no text. -/
structure VocObj where
  name : Option String
  difficult : Option ℤ
  truncated : Option ℤ
  bndbox : Option (Option ℚ × Option ℚ × Option ℚ × Option ℚ)
deriving DecidableEq, Repr

/-- A parsed Pascal VOC XML file (one per image). -/
structure VocFile where
  filename : Option String
  width : Option ℤ
  height : Option ℤ
  objects : List VocObj
deriving DecidableEq, Repr

/-- Embeds pass 1 of `PascalVOCReader.read` (pascal_voc.py lines 36-43):
every object name with a present element and non-None text, across all
files, in encounter order (the Python code accumulates them in a set). -/
def vocCollectNames (files : List VocFile) : List String :=
  files.flatMap (fun f => f.objects.filterMap (fun o => o.name))

/-- Embeds the category construction of `PascalVOCReader.read`
(pascal_voc.py lines 45-50): the distinct collected names sorted
alphabetically (code-point lexicographic order, as Python `sorted` on a
set of strings), numbered from 0. -/
def vocCategories (files : List VocFile) : List Category :=
  (List.insertionSort (fun a b : String => pyStrLe a b = true)
    (vocCollectNames files).dedup).enum.map (fun p => ⟨(p.1 : ℤ), p.2, none⟩)

/-- C4: the Pascal VOC reader's categories are exactly the distinct object
names across all files of the directory, ids 0, 1, 2, ... assigned in
alphabetical order of name, and the assignment is invariant under
permuting the file enumeration order. -/
theorem voc_reader_category_assignment (files files2 : List VocFile)
    (hperm : files.Perm files2) :
    vocCategories files = vocCategories files2 ∧
    ((vocCategories files).map (fun c => c.name)).Sorted
      (fun a b : String => pyStrLe a b = true) ∧
    ((vocCategories files).map (fun c => c.name)).Nodup ∧
    (∀ s : String,
      s ∈ (vocCategories files).map (fun c => c.name) ↔ s ∈ vocCollectNames files) ∧
    (vocCategories files).map (fun c => c.id) =
      (List.range (vocCategories files).length).map Int.ofNat := by
  have hnames : ∀ fs : List VocFile,
      (vocCategories fs).map (fun c => c.name) =
        List.insertionSort (fun a b : String => pyStrLe a b = true)
          (vocCollectNames fs).dedup := by
    intro fs
    rw [vocCategories, List.map_map]
    exact List.enum_map_snd _
  refine ⟨?_, ?_, ?_, ?_, ?_⟩
  · have hcoll : (vocCollectNames files).Perm (vocCollectNames files2) :=
      hperm.flatMap_right _
    have hsorteq :
        List.insertionSort (fun a b : String => pyStrLe a b = true)
            (vocCollectNames files).dedup =
          List.insertionSort (fun a b : String => pyStrLe a b = true)
            (vocCollectNames files2).dedup := by
      refine List.eq_of_perm_of_sorted ?_ (List.sorted_insertionSort _ _)
        (List.sorted_insertionSort _ _)
      exact ((List.perm_insertionSort _ _).trans hcoll.dedup).trans
        (List.perm_insertionSort _ _).symm
    rw [vocCategories, vocCategories, hsorteq]
  · rw [hnames files]
    exact List.sorted_insertionSort _ _
  · rw [hnames files]
    exact ((List.perm_insertionSort _ _).nodup_iff).mpr (List.nodup_dedup _)
  · intro s
    rw [hnames files, (List.perm_insertionSort _ _).mem_iff, List.mem_dedup]
  · rw [vocCategories, List.map_map, List.length_map, List.enum_length,
      ← List.enum_map_fst (List.insertionSort
        (fun a b : String => pyStrLe a b = true) (vocCollectNames files).dedup),
      List.map_map]
    exact List.map_congr_left (fun p _ => rfl)

/-- Witness for `voc_reader_category_assignment`: two files declaring
"cat" and one declaring "dog", in two different enumeration orders, yield
the same two categories cat=0 and dog=1. -/
theorem voc_reader_category_assignment_witness :
    ([⟨some "a.jpg", some 5, some 5, [⟨some "cat", none, none, none⟩]⟩,
      ⟨some "b.jpg", some 5, some 5, [⟨some "cat", none, none, none⟩]⟩,
      ⟨some "c.jpg", some 5, some 5, [⟨some "dog", none, none, none⟩]⟩] :
        List VocFile).Perm
      [⟨some "c.jpg", some 5, some 5, [⟨some "dog", none, none, none⟩]⟩,
       ⟨some "a.jpg", some 5, some 5, [⟨some "cat", none, none, none⟩]⟩,
       ⟨some "b.jpg", some 5, some 5, [⟨some "cat", none, none, none⟩]⟩] ∧
    vocCategories
      [⟨some "a.jpg", some 5, some 5, [⟨some "cat", none, none, none⟩]⟩,
       ⟨some "b.jpg", some 5, some 5, [⟨some "cat", none, none, none⟩]⟩,
       ⟨some "c.jpg", some 5, some 5, [⟨some "dog", none, none, none⟩]⟩] =
      vocCategories
        [⟨some "c.jpg", some 5, some 5, [⟨some "dog", none, none, none⟩]⟩,
         ⟨some "a.jpg", some 5, some 5, [⟨some "cat", none, none, none⟩]⟩,
         ⟨some "b.jpg", some 5, some 5, [⟨some "cat", none, none, none⟩]⟩] ∧
    vocCategories
      [⟨some "a.jpg", some 5, some 5, [⟨some "cat", none, none, none⟩]⟩,
       ⟨some "b.jpg", some 5, some 5, [⟨some "cat", none, none, none⟩]⟩,
       ⟨some "c.jpg", some 5, some 5, [⟨some "dog", none, none, none⟩]⟩] =
      [⟨0, "cat", none⟩, ⟨1, "dog", none⟩] := by
  refine ⟨by decide, ?_, by decide⟩
  exact (voc_reader_category_assignment _ _ (by decide)).1

/-- The supported format identifiers, in the insertion order of the
`readers`/`writers` dicts of `Converter.__init__`. -/
def supportedFormats : List String :=
  ["coco", "yolo", "voc"]

/-- The message of the unsupported-format `ValueError` raised by
`Converter.read` and `Converter.write`; the trailing literal is the Python
rendering of `list(self.readers.keys())`. -/
def unsupportedMsg (fmt : String) : String :=
  "Unsupported format: " ++ fmt ++ ". Supported formats: " ++ "['coco', 'yolo', 'voc']"

/-- The message of the missing-parameter `ValueError` of `Converter.read`
for the YOLO source format. -/
def yoloParamsMsg : String :=
  "YOLO format requires 'images_dir' and 'classes_file' parameters"

/-- The keyword arguments `Converter.read`/`Converter.write` consult. -/
structure Kwargs where
  images_dir : Option String
  classes_file : Option String
  image_ext : Option String
  output_classes_file : Option String
deriving DecidableEq, Repr

/-- Python truthiness of an optional string: `None` and `""` are falsy. -/
def pyTruthy : Option String → Bool
  | none => false
  | some s => s != ""

/-- The reader invocation `Converter.read` dispatches to, with the
arguments it passes. -/
inductive ReadAction where
  | cocoRead (annotation_path : String)
  | yoloRead (labels_dir images_dir classes_file image_ext : String)
  | vocRead (annotations_dir : String)
deriving DecidableEq, Repr

/-- The writer invocation `Converter.write` dispatches to, with the
arguments it passes. -/
inductive WriteAction where
  | cocoW (output_path : String)
  | yoloW (output_labels_dir output_classes_file : String)
  | vocW (output_dir : String)
deriving DecidableEq, Repr

/-- Embeds `pathlib.Path(s).parent` rendered back to a string. -/
def pathParent (s : String) : String :=
  let parts := s.splitOn "/"
  if parts.length ≤ 1 then "." else String.intercalate "/" parts.dropLast

/-- Embeds `str(Path(a) / b)`, including the normalization that joining
onto `"."` drops the leading dot component. -/
def pathJoin (a b : String) : String :=
  if a = "." then b else a ++ "/" ++ b

/-- Embeds `Converter.read` (converter.py lines 88-133) up to the choice
of reader call: the format check, the YOLO parameter validation, and the
dispatch.  An `error` is a raised `ValueError` with that message; an `ok`
describes the reader invocation that is attempted. -/
def converterRead (format_type : String) (source_path : String) (kw : Kwargs) :
    Except String ReadAction :=
  if format_type ∉ supportedFormats then
    Except.error (unsupportedMsg format_type)
  else if format_type = "coco" then
    Except.ok (ReadAction.cocoRead source_path)
  else if format_type = "yolo" then
    if !pyTruthy kw.images_dir || !pyTruthy kw.classes_file then
      Except.error yoloParamsMsg
    else
      Except.ok (ReadAction.yoloRead source_path (kw.images_dir.getD "")
        (kw.classes_file.getD "") (kw.image_ext.getD ".jpg"))
  else if format_type = "voc" then
    Except.ok (ReadAction.vocRead source_path)
  else
    Except.error ("Format " ++ format_type ++ " not implemented")

/-- Embeds `Converter.write` (converter.py lines 135-178) up to the choice
of writer call: the format check, the YOLO default classes-file path, and
the dispatch. -/
def converterWrite (format_type : String) (ds : Dataset) (target_path : String)
    (kw : Kwargs) : Except String WriteAction :=
  if format_type ∉ supportedFormats then
    Except.error (unsupportedMsg format_type)
  else if format_type = "coco" then
    Except.ok (WriteAction.cocoW target_path)
  else if format_type = "yolo" then
    let ocf := if pyTruthy kw.output_classes_file then kw.output_classes_file.getD ""
      else pathJoin (pathParent target_path) "classes.txt"
    Except.ok (WriteAction.yoloW target_path ocf)
  else if format_type = "voc" then
    Except.ok (WriteAction.vocW target_path)
  else
    Except.error ("Format " ++ format_type ++ " not implemented")

/-- Concatenation of strings concatenates their character data. -/
theorem str_data_append (a b : String) : (a ++ b).data = a.data ++ b.data := by
  obtain ⟨la⟩ := a
  obtain ⟨lb⟩ := b
  rfl

/-- C7: for any format identifier outside {"coco", "yolo", "voc"}, both
`Converter.read` and `Converter.write` raise the unsupported-format
`ValueError` without attempting any reader or writer call (the result is
the error for every source path, dataset, target path, and keyword
arguments), and the message contains the bad identifier and each of the
three valid identifiers. -/
theorem converter_unsupported_format (fmt source_path target_path : String)
    (kw : Kwargs) (ds : Dataset) (h : fmt ∉ supportedFormats) :
    converterRead fmt source_path kw = Except.error (unsupportedMsg fmt) ∧
    converterWrite fmt ds target_path kw = Except.error (unsupportedMsg fmt) ∧
    (∃ l r : List Char, (unsupportedMsg fmt).data = l ++ fmt.data ++ r) ∧
    (∃ l r : List Char, (unsupportedMsg fmt).data = l ++ "coco".data ++ r) ∧
    (∃ l r : List Char, (unsupportedMsg fmt).data = l ++ "yolo".data ++ r) ∧
    (∃ l r : List Char, (unsupportedMsg fmt).data = l ++ "voc".data ++ r) := by
  have hdata : (unsupportedMsg fmt).data =
      "Unsupported format: ".data ++ (fmt.data ++
        (". Supported formats: ".data ++ "['coco', 'yolo', 'voc']".data)) := by
    rw [unsupportedMsg, str_data_append, str_data_append, str_data_append,
      List.append_assoc, List.append_assoc]
  refine ⟨?_, ?_, ?_, ?_, ?_, ?_⟩
  · rw [converterRead, if_pos h]
  · rw [converterWrite, if_pos h]
  · exact ⟨"Unsupported format: ".data,
      ". Supported formats: ".data ++ "['coco', 'yolo', 'voc']".data,
      by rw [hdata, List.append_assoc]⟩
  · refine ⟨"Unsupported format: ".data ++ fmt.data ++ ". Supported formats: ['".data,
      "', 'yolo', 'voc']".data, ?_⟩
    rw [hdata]
    simp only [List.append_assoc]
    refine congrArg _ (congrArg _ ?_)
    decide
  · refine ⟨"Unsupported format: ".data ++ fmt.data ++
      ". Supported formats: ['coco', '".data, "', 'voc']".data, ?_⟩
    rw [hdata]
    simp only [List.append_assoc]
    refine congrArg _ (congrArg _ ?_)
    decide
  · refine ⟨"Unsupported format: ".data ++ fmt.data ++
      ". Supported formats: ['coco', 'yolo', '".data, "']".data, ?_⟩
    rw [hdata]
    simp only [List.append_assoc]
    refine congrArg _ (congrArg _ ?_)
    decide

/-- Witness for `converter_unsupported_format` at the identifier "xml". -/
theorem converter_unsupported_format_witness :
    ("xml" ∉ supportedFormats) ∧
    converterRead "xml" "in.xml"
        ⟨none, none, none, none⟩ = Except.error (unsupportedMsg "xml") ∧
    converterWrite "xml" ⟨[], [], []⟩ "out.xml"
        ⟨none, none, none, none⟩ = Except.error (unsupportedMsg "xml") :=
  ⟨by decide,
    (converter_unsupported_format "xml" "in.xml" "out.xml"
      ⟨none, none, none, none⟩ ⟨[], [], []⟩ (by decide)).1,
    (converter_unsupported_format "xml" "in.xml" "out.xml"
      ⟨none, none, none, none⟩ ⟨[], [], []⟩ (by decide)).2.1⟩

/-- C8: an `Annotation` constructed with `area=None` gets area
(x_max - x_min) * (y_max - y_min) of its bbox; an explicit area is kept;
after construction the area is never `None`; and `iscrowd` defaults to 0
when not supplied. -/
theorem annotation_defaults (bbox : BBox) (cid : ℤ) (cname : String)
    (d t : Bool) (ic : ℤ) (a : ℚ) (oa : Option ℚ) :
    (mkAnn bbox cid cname d t none ic).area =
      some ((bbox.x_max - bbox.x_min) * (bbox.y_max - bbox.y_min)) ∧
    (mkAnn bbox cid cname d t (some a) ic).area = some a ∧
    (mkAnn bbox cid cname d t oa ic).area ≠ none ∧
    (mkAnnDefaults bbox cid cname).iscrowd = 0 := by
  refine ⟨rfl, rfl, ?_, rfl⟩
  cases oa <;> simp [mkAnn]

end C2cli

